import Mathlib

/-!
OscillationDataAnalyzer: record parsing, baseline join and re-binning

A shallow embedding of `src/main.cpp` (class `OscillationAnalyzer`) and the
properties of its aggregation pipeline.

Conventions of the embedding.

* `float` is a type parameter `F` with a zero.  The program copies float values and
  reads them from text; the conversion from a decimal field to a float (the C library
  `strtof`, with its range-error flag) is a parameter `strtof`.  Only the histogram of
  `plotHistograms2` computes with floats: it adds weights with the addition of `F` and
  places a position by the number `val` says the float denotes.
* A text file is the list of lines that successive `std::getline` calls return; a
  line is the list of its `char`s.  The file system is a function from file names to
  `Option` of such a list, `none` standing for a file that cannot be opened.
* `std::stringstream` extraction follows the C++ stream rules in the "C" locale:
  a failed or exhausted stream ignores every further operation.
* `std::cerr` output is returned next to the value of the function writing it.
-/

set_option autoImplicit false

namespace OscillationAnalyzer

/-! ## Data model -/

/-- Class `DataPoint`: one measurement row with five float columns. -/
structure DataPoint (F : Type) where
  bin_center : F
  ibd_counts : F
  total_stats_error : F
  background_counts : F
  background_stats_error : F
  deriving DecidableEq, Repr

/-- The constructor `DataPoint()`: every column starts at zero. -/
def DataPoint.default (F : Type) [Zero F] : DataPoint F :=
  { bin_center := 0, ibd_counts := 0, total_stats_error := 0,
    background_counts := 0, background_stats_error := 0 }

/-- Struct `SegmentMap`: one segment-to-baseline entry. -/
structure SegmentMap (F : Type) where
  segment : Int
  baseline : F
  deriving DecidableEq, Repr

/-! ## String streams -/

/-- A decimal field as the C library reads it: sign, digit string as a natural
number, and power of ten. -/
structure Decimal where
  neg : Bool
  mant : Nat
  exp10 : Int
  deriving DecidableEq, Repr

/-- State of a `std::stringstream` opened on a line: unread characters and the
two state bits that the extraction operators consult. -/
structure IStream where
  buf : List Char
  eofbit : Bool
  failbit : Bool
  deriving DecidableEq, Repr

/-- The test `good()`: no state bit is set. -/
def IStream.good (ss : IStream) : Bool := !ss.eofbit && !ss.failbit

/-- The declaration `std::stringstream ss(line)`. -/
def IStream.ofLine (line : List Char) : IStream :=
  { buf := line, eofbit := false, failbit := false }

/-- The function `std::isspace` in the "C" locale. -/
def isspace (c : Char) : Bool :=
  c == ' ' || c == '\t' || c == '\n' || c == '\r' || c == Char.ofNat 11 || c == Char.ofNat 12

/-- Value of a string of decimal digits. -/
def digitsVal (ds : List Char) : Nat :=
  ds.foldl (fun n c => 10 * n + (c.toNat - 48)) 0

/-- Accumulation of the characters of a floating-point field after the optional
sign: digits, at most one decimal point before any exponent, and one exponent
marker (after at least one digit) with its optional sign.  The flags record whether
a digit, a decimal point and an exponent marker have been seen.  Returns the field
and the characters left in the stream. -/
def scanBody : Bool → Bool → Bool → List Char → List Char × List Char
  | _, _, _, [] => ([], [])
  | mant, dec, sci, c :: cs =>
    if c.isDigit then
      let r := scanBody true dec sci cs
      (c :: r.1, r.2)
    else if c == '.' && !dec && !sci then
      let r := scanBody mant true sci cs
      ('.' :: r.1, r.2)
    else if (c == 'e' || c == 'E') && !sci && mant then
      match cs with
      | [] => (['e'], [])
      | s :: cs2 =>
        if s == '+' || s == '-' then
          let r := scanBody mant dec true cs2
          ('e' :: s :: r.1, r.2)
        else
          let r := scanBody mant dec true (s :: cs2)
          ('e' :: r.1, r.2)
    else ([], c :: cs)

/-- Accumulation of a whole floating-point field: optional sign, then `scanBody`. -/
def scanFloat : List Char → List Char × List Char
  | [] => ([], [])
  | c :: cs =>
    if c == '+' || c == '-' then
      let r := scanBody false false false cs
      (c :: r.1, r.2)
    else scanBody false false false (c :: cs)

/-- Splits an optional sign off a field. -/
def takeSign : List Char → Bool × List Char
  | '-' :: t => (true, t)
  | '+' :: t => (false, t)
  | s => (false, s)

/-- Reading of an accumulated field as a decimal: `none` when the C conversion
would not consume the whole field (no mantissa digit, or an exponent marker without
exponent digits). -/
def fieldDecimal (field : List Char) : Option Decimal :=
  let sg := takeSign field
  let ip := sg.2.takeWhile Char.isDigit
  let r1 := sg.2.dropWhile Char.isDigit
  let fp := match r1 with
    | '.' :: t => t.takeWhile Char.isDigit
    | _ => []
  let r2 := match r1 with
    | '.' :: t => t.dropWhile Char.isDigit
    | _ => r1
  if ip.isEmpty && fp.isEmpty then none
  else
    match r2 with
    | [] => some { neg := sg.1, mant := digitsVal (ip ++ fp), exp10 := - (fp.length : Int) }
    | 'e' :: t =>
      let es := takeSign t
      if !es.2.isEmpty && es.2.all Char.isDigit then
        some { neg := sg.1, mant := digitsVal (ip ++ fp),
               exp10 := (if es.1 then - (digitsVal es.2 : Int) else (digitsVal es.2 : Int))
                          - (fp.length : Int) }
      else none
    | _ => none

section Streams

variable {F : Type} [Zero F]

/-- Conversion of an accumulated field to a float, with the `failbit` it raises: a
field the C conversion cannot consume stores 0 and fails; otherwise `strtof` gives the
float the decimal converts to and whether it reports a range error (in which case the
value is the clamped one). -/
def convertField (strtof : Decimal → F × Bool) (field : List Char) : F × Bool :=
  match fieldDecimal field with
  | none => (0, true)
  | some d => strtof d

/-- The extraction `ss >> x` for a `float x` holding `v`: nothing happens on a stream
that is not good; otherwise white space is skipped, a field is accumulated and
converted, and `eofbit` is set when the accumulation reached the end of the buffer. -/
def extractFloat (strtof : Decimal → F × Bool) (ss : IStream) (v : F) : F × IStream :=
  if !ss.good then (v, { ss with failbit := true })
  else
    let s := ss.buf.dropWhile isspace
    if s.isEmpty then (v, { buf := [], eofbit := true, failbit := true })
    else
      let r := scanFloat s
      let cv := convertField strtof r.1
      (cv.1, { buf := r.2, eofbit := r.2.isEmpty, failbit := cv.2 })

/-- The extraction `ss >> n` for an `int n` holding `v`: optional sign and decimal
digits; no digit stores 0 and a value outside the 32-bit range stores the nearest
bound, both setting `failbit`. -/
def extractInt (ss : IStream) (v : Int) : Int × IStream :=
  if !ss.good then (v, { ss with failbit := true })
  else
    let s := ss.buf.dropWhile isspace
    if s.isEmpty then (v, { buf := [], eofbit := true, failbit := true })
    else
      let sg := takeSign s
      let ds := sg.2.takeWhile Char.isDigit
      let rest := sg.2.dropWhile Char.isDigit
      if ds.isEmpty then (0, { buf := rest, eofbit := rest.isEmpty, failbit := true })
      else
        let n : Int := if sg.1 then - (digitsVal ds : Int) else (digitsVal ds : Int)
        if n > 2147483647 then
          (2147483647, { buf := rest, eofbit := rest.isEmpty, failbit := true })
        else if n < -2147483648 then
          (-2147483648, { buf := rest, eofbit := rest.isEmpty, failbit := true })
        else (n, { buf := rest, eofbit := rest.isEmpty, failbit := false })

/-- The call `ss.ignore()`: drops one character; at the end of the buffer sets `eofbit`. -/
def ignore (ss : IStream) : IStream :=
  if !ss.good then { ss with failbit := true }
  else
    match ss.buf with
    | [] => { ss with eofbit := true }
    | _ :: t => { ss with buf := t }

end Streams

/-! ## Parsing (`parseFile`, `parseSegmentMapFile`) -/

/-- A line of a text file, as `std::getline` delivers it. -/
abbrev Line := List Char

/-- A file system: the lines of each file that can be opened. -/
abbrev FileSystem := String → Option (List Line)

/-- The test `line.empty() || line[0] == '#'` of both reading loops. -/
def skipLine (line : Line) : Bool :=
  line.isEmpty || line.head? == some '#'

section Parsing

variable {F : Type} [Zero F]

/-- Body of the loop of `parseFile` for a line that is not skipped: the
`DataPoint` that is pushed. -/
def parseLine (strtof : Decimal → F × Bool) (numColumns : Int) (line : Line) : DataPoint F :=
  let dp := DataPoint.default F
  let r1 := extractFloat strtof (IStream.ofLine line) dp.bin_center
  let r2 := extractFloat strtof (ignore r1.2) dp.ibd_counts
  if numColumns > 2 then
    let r3 := extractFloat strtof (ignore r2.2) dp.total_stats_error
    let r4 := extractFloat strtof (ignore r3.2) dp.background_counts
    let r5 := extractFloat strtof (ignore r4.2) dp.background_stats_error
    { bin_center := r1.1, ibd_counts := r2.1, total_stats_error := r3.1,
      background_counts := r4.1, background_stats_error := r5.1 }
  else
    { dp with bin_center := r1.1, ibd_counts := r2.1 }

/-- The `while (std::getline(infile, line))` loop of `parseFile`, started with the
vector `data` built so far. -/
def parseFileLoop (strtof : Decimal → F × Bool) (numColumns : Int) :
    List Line → List (DataPoint F) → List (DataPoint F)
  | [], data => data
  | line :: rest, data =>
    if skipLine line then parseFileLoop strtof numColumns rest data
    else parseFileLoop strtof numColumns rest (data ++ [parseLine strtof numColumns line])

/-- Method `parseFile`: the returned vector and what is written to `std::cerr`. -/
def parseFile (strtof : Decimal → F × Bool) (fs : FileSystem) (filename : String)
    (numColumns : Int) : List (DataPoint F) × List String :=
  match fs filename with
  | none => ([], ["Error opening file: " ++ filename])
  | some lines => (parseFileLoop strtof numColumns lines [], [])

/-- Body of the loop of `parseSegmentMapFile` for a line that is not skipped.  The
local `SegmentMap sm` has no initialiser: `uninit` is its indeterminate content,
which a field keeps when its extraction is not attempted. -/
def parseSegmentMapLine (strtof : Decimal → F × Bool) (uninit : SegmentMap F) (line : Line) :
    SegmentMap F :=
  let r1 := extractInt (IStream.ofLine line) uninit.segment
  let r2 := extractFloat strtof (ignore r1.2) uninit.baseline
  { segment := r1.1, baseline := r2.1 }

/-- The reading loop of `parseSegmentMapFile`, started with the vector built so far. -/
def parseSegmentMapLoop (strtof : Decimal → F × Bool) (uninit : SegmentMap F) :
    List Line → List (SegmentMap F) → List (SegmentMap F)
  | [], segmentMap => segmentMap
  | line :: rest, segmentMap =>
    if skipLine line then parseSegmentMapLoop strtof uninit rest segmentMap
    else parseSegmentMapLoop strtof uninit rest
      (segmentMap ++ [parseSegmentMapLine strtof uninit line])

/-- Method `parseSegmentMapFile`: the returned vector and what is written to
`std::cerr`. -/
def parseSegmentMapFile (strtof : Decimal → F × Bool) (uninit : SegmentMap F)
    (fs : FileSystem) (filename : String) : List (SegmentMap F) × List String :=
  match fs filename with
  | none => ([], ["Error opening file: " ++ filename])
  | some lines => (parseSegmentMapLoop strtof uninit lines [], [])

end Parsing

/-! ## Baseline join -/

section Join

variable {F : Type}

/-- Method `mapSegmentToBaseline`: a copy of the records with every `bin_center`
replaced by the baseline of the entry. -/
def mapSegmentToBaseline (segmentData : List (DataPoint F)) (segmentMap : SegmentMap F) :
    List (DataPoint F) :=
  segmentData.map (fun dp => { dp with bin_center := segmentMap.baseline })

/-- The lookup loop of `processFiles` (`for (const auto& sm : segmentMap)` with its
`break`): the value of `data` after the loop. -/
def joinSegment : List (SegmentMap F) → Int → List (DataPoint F) → List (DataPoint F)
  | [], _, data => data
  | sm :: rest, segment, data =>
    if sm.segment == segment then mapSegmentToBaseline data sm
    else joinSegment rest segment data

/-- Method `createRootFile`, as far as the rows of the tree `OscData` go: one row per
record, segment after segment, each segment in its own order. -/
def createRootFile (allData : List (List (DataPoint F))) : List (DataPoint F) :=
  allData.flatten

end Join

/-! ## Histograms -/

/-- Modelled from the spec: the histogram class `TH1F` of the ROOT library, which is
not part of the repository.  It is a fixed-range accumulator that partitions
`[xmin, xmax)` into `nbins` equal-width bins; `cells` holds the underflow bucket at
index 0, the bins at indices `1 .. nbins` and the overflow bucket at `nbins + 1`. -/
structure TH1F (F : Type) where
  nbins : Nat
  xmin : ℚ
  xmax : ℚ
  cells : List F
  deriving DecidableEq

section Histograms

variable {F : Type} [Zero F]

/-- Modelled from the spec: the constructor of `TH1F`, every cell at zero. -/
def TH1F.new (nbins : Nat) (xmin xmax : ℚ) : TH1F F :=
  { nbins := nbins, xmin := xmin, xmax := xmax, cells := List.replicate (nbins + 2) 0 }

/-- Modelled from the spec: `TH1F::SetBinContent`, which overwrites one cell (and
leaves the histogram alone for a cell number it does not have). -/
def TH1F.SetBinContent (h : TH1F F) (bin : Nat) (content : F) : TH1F F :=
  { h with cells := h.cells.set bin content }

/-- Modelled from the spec: `TH1F::GetBinContent`. -/
def TH1F.GetBinContent (h : TH1F F) (bin : Nat) : F :=
  h.cells.getD bin 0

/-- Modelled from the spec: the cell a position belongs to, the underflow or
overflow bucket when it is outside `[xmin, xmax)`. -/
def TH1F.FindBin (h : TH1F F) (x : ℚ) : Nat :=
  if x < h.xmin then 0
  else if h.xmax ≤ x then h.nbins + 1
  else 1 + (Int.floor ((h.nbins : ℚ) * (x - h.xmin) / (h.xmax - h.xmin))).toNat

/-- Modelled from the spec: `TH1F::Fill(x, w)`, which adds the weight `w` to the cell
of position `x`.  `val` gives the number a float denotes. -/
def TH1F.Fill [Add F] (val : F → ℚ) (h : TH1F F) (x w : F) : TH1F F :=
  h.SetBinContent (h.FindBin (val x)) (h.GetBinContent (h.FindBin (val x)) + w)

/-- State of the block walk of `plotHistograms`: the counter `current_segment`, the
vector `histograms` (`none` once an element outside the vector has been accessed,
after which the program has no defined behaviour), and the list of the addresses
(element index, bin number) of the `SetBinContent` calls made so far. -/
structure BlockWalk (F : Type) where
  current_segment : Nat
  histograms : Option (List (TH1F F))
  writes : List (Nat × Nat)

/-- One iteration of the walk of `plotHistograms`, for the tree row `i` whose
`ibd_counts` is `bin_content`.  The counter `current_segment` is an `int`; it could
leave the `int` range only after 2^35 rows, long after the first access outside the
vector, so it is counted in the natural numbers. -/
def plotHistogramsStep (st : BlockWalk F) (i : Nat) (bin_content : F) : BlockWalk F :=
  let cur := if i % 16 == 0 && i != 0 then st.current_segment + 1 else st.current_segment
  { current_segment := cur
    histograms := st.histograms.bind (fun hs =>
      match hs[cur]? with
      | none => none
      | some h => some (hs.set cur (h.SetBinContent (i % 16 + 1) bin_content)))
    writes := st.writes ++ [(cur, i % 16 + 1)] }

/-- The loop `for (Long64_t i = 0; i < nentries; ++i)` of `plotHistograms` from row
`i` on, over the remaining rows of the tree. -/
def plotHistogramsLoop : List (DataPoint F) → Nat → BlockWalk F → BlockWalk F
  | [], _, st => st
  | dp :: rest, i, st => plotHistogramsLoop rest (i + 1) (plotHistogramsStep st i dp.ibd_counts)

/-- Method `plotHistograms`, as far as the histogram contents go: ten histograms of
16 bins over `[0.5, 7.5)` are allocated and the rows of the tree are walked. -/
def plotHistograms (tree : List (DataPoint F)) : BlockWalk F :=
  plotHistogramsLoop tree 0
    { current_segment := 0
      histograms := some (List.replicate 10 (TH1F.new 16 (1 / 2) (15 / 2)))
      writes := [] }

/-- Conversion of a 64-bit row count to `int` (two's complement wrap-around). -/
def toInt32 (n : Int) : Int :=
  (n + 2147483648) % 4294967296 - 2147483648

/-- Method `plotHistograms2`, as far as the histogram contents go: the row count of
the tree is stored in `int nentries`, and the rows `0 .. nentries - 1` are filled
into a histogram of 100 bins over `[0, 10)` at position `bin_center` with weight
`ibd_counts`. -/
def plotHistograms2 [Add F] (val : F → ℚ) (tree : List (DataPoint F)) : TH1F F :=
  let nentries := toInt32 (tree.length : Int)
  (tree.take nentries.toNat).foldl (fun h1 dp => h1.Fill val dp.bin_center dp.ibd_counts)
    (TH1F.new 100 0 10)

end Histograms

/-! ## The driver -/

/-- What a run of `processFiles` leaves behind: the three member vectors, the rows of
the two trees, the two histogram results and the text written to `std::cerr`. -/
structure Analyzer (F : Type) where
  segmentMap : List (SegmentMap F)
  allPromptData : List (List (DataPoint F))
  allNullData : List (List (DataPoint F))
  promptTree : List (DataPoint F)
  nullTree : List (DataPoint F)
  blocked : BlockWalk F
  weighted : TH1F F
  cerr : List String

section Driver

variable {F : Type} [Zero F] [Add F]

/-- Name of the prompt file of a segment. -/
def promptFileName (segment : Nat) : String :=
  "PromptDataSet/1.4_Osc_Prompt" ++ toString segment ++ ".txt"

/-- Name of the null-prediction file of a baseline. -/
def nullFileName (baseline : Nat) : String :=
  "NullDataSet/1.6_Osc_NullOscPred" ++ toString baseline ++ ".txt"

/-- Name of the segment map file. -/
def segmentMapFileName : String := "PromptDataSet/1.1_Osc_SegmentMap.txt"

/-- The segments `15 .. 138` in the order the driver requests them. -/
def promptSegments : List Nat := (List.range 124).map (fun k => 15 + k)

/-- The baselines `1 .. 10` in the order the driver requests them. -/
def nullBaselines : List Nat := (List.range 10).map (fun k => 1 + k)

/-- One iteration of the prompt loop of `processFiles`: the vector pushed onto
`allPromptData` for a segment. -/
def promptData (strtof : Decimal → F × Bool) (fs : FileSystem)
    (segmentMap : List (SegmentMap F)) (segment : Nat) : List (DataPoint F) :=
  joinSegment segmentMap (segment : Int) (parseFile strtof fs (promptFileName segment) 5).1

/-- Method `processFiles`. -/
def processFiles (strtof : Decimal → F × Bool) (val : F → ℚ) (uninit : SegmentMap F)
    (fs : FileSystem) : Analyzer F :=
  let sm := parseSegmentMapFile strtof uninit fs segmentMapFileName
  let allPromptData := promptSegments.map (promptData strtof fs sm.1)
  let allNullData := nullBaselines.map (fun b => (parseFile strtof fs (nullFileName b) 2).1)
  { segmentMap := sm.1
    allPromptData := allPromptData
    allNullData := allNullData
    promptTree := createRootFile allPromptData
    nullTree := createRootFile allNullData
    blocked := plotHistograms (createRootFile allNullData)
    weighted := plotHistograms2 val (createRootFile allPromptData)
    cerr := sm.2
      ++ (promptSegments.map (fun s => (parseFile strtof fs (promptFileName s) 5).2)).flatten
      ++ (nullBaselines.map (fun b => (parseFile strtof fs (nullFileName b) 2).2)).flatten }

/-- A conversion for worked examples: the exact value of the decimal as a rational,
never out of range.  It agrees with `strtof` on decimals that a float holds exactly
(such as `1.0`, `2.5` or `7.0`). -/
def exactDecimal (d : Decimal) : ℚ × Bool :=
  (mkRat ((if d.neg then - (d.mant : Int) else (d.mant : Int)) * ((10 ^ d.exp10.toNat : Nat) : Int))
     (10 ^ (-d.exp10).toNat), false)

/-- A conversion for worked examples that has the range of `float`: a decimal whose
magnitude reaches `2^128 - 2^103`, the least value that rounds past the largest
float, converts to the largest float `(2^24 - 1) * 2^104` with the sign of the
decimal and a range error; any other decimal converts as with `exactDecimal`. -/
def rangeDecimal (d : Decimal) : ℚ × Bool :=
  if (2 ^ 128 - 2 ^ 103) * 10 ^ (-d.exp10).toNat ≤ d.mant * 10 ^ d.exp10.toNat then
    (mkRat (if d.neg then - (340282346638528859811704183484516925440 : Int)
            else 340282346638528859811704183484516925440) 1, true)
  else exactDecimal d

end Driver

/-! ## Reading of the specification's terms -/

section Terms

variable {F : Type} [Zero F]

/-- The columns of a record by position, `0` for `bin_center` up to `4` for
`background_stats_error`. -/
def DataPoint.column (dp : DataPoint F) : Nat → F
  | 0 => dp.bin_center
  | 1 => dp.ibd_counts
  | 2 => dp.total_stats_error
  | 3 => dp.background_counts
  | _ => dp.background_stats_error

/-- Number of numeric tokens the five-column reading of a line obtains: the number
of its leading `>>` extractions that do not fail. -/
def fieldsRead (strtof : Decimal → F × Bool) (line : Line) : Nat :=
  let r1 := extractFloat strtof (IStream.ofLine line) (0 : F)
  if r1.2.failbit then 0
  else
    let r2 := extractFloat strtof (ignore r1.2) (0 : F)
    if r2.2.failbit then 1
    else
      let r3 := extractFloat strtof (ignore r2.2) (0 : F)
      if r3.2.failbit then 2
      else
        let r4 := extractFloat strtof (ignore r3.2) (0 : F)
        if r4.2.failbit then 3
        else
          let r5 := extractFloat strtof (ignore r4.2) (0 : F)
          if r5.2.failbit then 4 else 5

/-- Content of the cell at offset `o` (bin number `o + 1`) of block `b` after a walk,
when the walk stayed inside the allocated histograms. -/
def BlockWalk.content (w : BlockWalk F) (b o : Nat) : Option F :=
  w.histograms.bind (fun hs => (hs[b]?).map (fun h => h.GetBinContent (o + 1)))

/-- The value that cell `c` of block `b` is expected to hold once the rows `tree`
have been walked. -/
def cellOf (tree : List (DataPoint F)) (b c : Nat) : F :=
  if 1 ≤ c ∧ c ≤ 16 then ((tree[16 * b + (c - 1)]?).map DataPoint.ibd_counts).getD 0 else 0

/-- Invariant of the walk: ten histograms of 18 cells holding the expected values. -/
def GridInv (g : List (TH1F F)) (tree : List (DataPoint F)) : Prop :=
  g.length = 10 ∧
  ∀ b, b < 10 → ∃ h, g[b]? = some h ∧ h.cells.length = 18 ∧
    ∀ c, c < 18 → h.cells[c]? = some (cellOf tree b c)

/-- The sign written in front of a numeral, if any. -/
inductive NumSign where
  | unsigned
  | plus
  | minus
  deriving DecidableEq, Repr

/-- A plain decimal numeral as it is written: an optional sign, the digits before
the decimal point, and the digits after the decimal point when there is one. -/
structure Numeral where
  sign : NumSign
  intDigits : List Char
  fracDigits : Option (List Char)
  deriving DecidableEq, Repr

/-- The characters of the optional fraction of a numeral: the decimal point and the
digits after it. -/
def fracText : Option (List Char) → List Char
  | none => []
  | some fp => '.' :: fp

/-- The characters of the optional sign of a numeral. -/
def signText : NumSign → List Char
  | NumSign.unsigned => []
  | NumSign.plus => ['+']
  | NumSign.minus => ['-']

/-- The characters of a numeral. -/
def Numeral.text (n : Numeral) : List Char :=
  signText n.sign ++ (n.intDigits ++ fracText n.fracDigits)

/-- A numeral is well formed when it has at least one digit before the decimal
point and only digits in its two digit strings. -/
def Numeral.wellFormed (n : Numeral) : Bool :=
  !n.intDigits.isEmpty && n.intDigits.all Char.isDigit && (n.fracDigits.getD []).all Char.isDigit

/-- The natural number a digit string denotes in positional notation: each digit
counts for its value times ten to the number of digits after it. -/
def positionalValue : List Char → Nat
  | [] => 0
  | c :: cs => (c.toNat - 48) * 10 ^ cs.length + positionalValue cs

/-- The number a numeral denotes, as sign, digits without the point, and minus the
number of digits after the point as power of ten. -/
def Numeral.decimal (n : Numeral) : Decimal :=
  { neg := decide (n.sign = NumSign.minus)
    mant := positionalValue (n.intDigits ++ n.fracDigits.getD [])
    exp10 := - ((n.fracDigits.getD []).length : Int) }

/-- The characters a numeric token is made of: digits, signs, the decimal point and
the exponent markers. -/
def isNumericChar (c : Char) : Bool :=
  c.isDigit || c == '.' || c == 'e' || c == 'E' || c == '+' || c == '-'

end Terms

/-! ## Properties -/

section ReadingLoops

variable {F : Type} [Zero F]

theorem parseFileLoop_eq (strtof : Decimal → F × Bool) (numColumns : Int) (lines : List Line)
    (data : List (DataPoint F)) :
    parseFileLoop strtof numColumns lines data
      = data ++ (lines.filter (fun l => !skipLine l)).map (parseLine strtof numColumns) := by
  induction lines generalizing data with
  | nil => simp [parseFileLoop]
  | cons l rest ih =>
    by_cases h : skipLine l = true
    · simp [parseFileLoop, h, ih]
    · simp [parseFileLoop, h, ih]

theorem parseSegmentMapLoop_eq (strtof : Decimal → F × Bool) (uninit : SegmentMap F)
    (lines : List Line) (segmentMap : List (SegmentMap F)) :
    parseSegmentMapLoop strtof uninit lines segmentMap
      = segmentMap
        ++ (lines.filter (fun l => !skipLine l)).map (parseSegmentMapLine strtof uninit) := by
  induction lines generalizing segmentMap with
  | nil => simp [parseSegmentMapLoop]
  | cons l rest ih =>
    by_cases h : skipLine l = true
    · simp [parseSegmentMapLoop, h, ih]
    · simp [parseSegmentMapLoop, h, ih]

end ReadingLoops

section JoinLemmas

variable {F : Type}

theorem joinSegment_of_find (m : List (SegmentMap F)) (target : Int) (data : List (DataPoint F))
    (e : SegmentMap F) (h : m.find? (fun sm => sm.segment == target) = some e) :
    joinSegment m target data = mapSegmentToBaseline data e := by
  induction m with
  | nil => simp at h
  | cons sm rest ih =>
    by_cases hs : sm.segment = target
    · have hb : (sm.segment == target) = true := by simp [hs]
      rw [List.find?_cons, hb] at h
      have hse : sm = e := by simpa using h
      subst hse
      simp [joinSegment, hs]
    · have hb : (sm.segment == target) = false := by simp [hs]
      rw [List.find?_cons, hb] at h
      simp [joinSegment, hs, ih h]

theorem joinSegment_of_absent (m : List (SegmentMap F)) (target : Int) (data : List (DataPoint F))
    (h : ∀ sm ∈ m, sm.segment ≠ target) :
    joinSegment m target data = data := by
  induction m with
  | nil => rfl
  | cons sm rest ih =>
    have hs : sm.segment ≠ target := h sm (List.mem_cons_self _ _)
    have hr : ∀ x ∈ rest, x.segment ≠ target := fun x hx => h x (List.mem_cons_of_mem _ hx)
    simp [joinSegment, hs, ih hr]

end JoinLemmas

/-- C1: `mapSegmentToBaseline r e` has the length and order of `r`; the record at
each index has `bin_center` equal to `e.baseline` and the other four columns equal to
those of the input record at that index.  The entry (20, 7.0) applied to the records
read from the lines `1.0,3.0` and `2.0,4.0` gives (7.0, 3.0) and (7.0, 4.0). -/
theorem mapSegmentToBaseline_frame :
    (∀ (F : Type) (r : List (DataPoint F)) (e : SegmentMap F),
      (mapSegmentToBaseline r e).length = r.length ∧
      ∀ i : Nat, (mapSegmentToBaseline r e)[i]? =
        (r[i]?).map (fun dp =>
          { bin_center := e.baseline, ibd_counts := dp.ibd_counts,
            total_stats_error := dp.total_stats_error,
            background_counts := dp.background_counts,
            background_stats_error := dp.background_stats_error })) ∧
    mapSegmentToBaseline
        (parseFile exactDecimal (fun _ => some ["1.0,3.0".toList, "2.0,4.0".toList]) "seg20" 2).1
        { segment := 20, baseline := 7 }
      = [{ bin_center := 7, ibd_counts := 3, total_stats_error := 0,
           background_counts := 0, background_stats_error := 0 },
         { bin_center := 7, ibd_counts := 4, total_stats_error := 0,
           background_counts := 0, background_stats_error := 0 }] := by
  refine ⟨fun F r e => ⟨by simp [mapSegmentToBaseline], fun i => ?_⟩, by decide⟩
  simp [mapSegmentToBaseline, List.getElem?_map]

/-- C2: when the first entry of the segment map, in map order, whose segment equals
the target is `e`, the lookup loop of `processFiles` leaves the records joined with
the baseline of `e`, also in the vector it pushes for that segment, and entries
appended after the map do not change the result.  With the entries (5, 10.0) then
(5, 99.0) the records of segment 5 get position 10.0. -/
theorem joinSegment_first_match {F : Type} [Zero F] (strtof : Decimal → F × Bool)
    (fs : FileSystem) (m : List (SegmentMap F)) (segment : Nat) (e : SegmentMap F)
    (h : m.find? (fun sm => sm.segment == (segment : Int)) = some e) :
    (∀ data : List (DataPoint F),
      joinSegment m segment data = data.map (fun dp => { dp with bin_center := e.baseline })) ∧
    (∀ (later : List (SegmentMap F)) (data : List (DataPoint F)),
      joinSegment (m ++ later) segment data = joinSegment m segment data) ∧
    promptData strtof fs m segment
      = (parseFile strtof fs (promptFileName segment) 5).1.map
          (fun dp => { dp with bin_center := e.baseline }) ∧
    (∀ data : List (DataPoint ℚ),
      joinSegment ([{ segment := 5, baseline := 10 }, { segment := 5, baseline := 99 }] :
          List (SegmentMap ℚ)) 5 data
        = data.map (fun dp => { dp with bin_center := 10 })) := by
  refine ⟨fun data => ?_, fun later data => ?_, ?_, fun data => ?_⟩
  · rw [joinSegment_of_find m _ data e h]; rfl
  · have h2 : (m ++ later).find? (fun sm => sm.segment == (segment : Int)) = some e := by
      simp [List.find?_append, h]
    rw [joinSegment_of_find _ _ data e h2, joinSegment_of_find m _ data e h]
  · unfold promptData
    rw [joinSegment_of_find m _ _ e h]; rfl
  · simp [joinSegment, mapSegmentToBaseline]

theorem joinSegment_first_match_witness :
    promptData exactDecimal
        (fun name => if name = promptFileName 20 then some ["1.0,3.0,0,0,0".toList] else none)
        [{ segment := 20, baseline := 7 }, { segment := 20, baseline := 9 }] 20
      = (parseFile exactDecimal
          (fun name => if name = promptFileName 20 then some ["1.0,3.0,0,0,0".toList] else none)
          (promptFileName 20) 5).1.map (fun dp => { dp with bin_center := 7 }) :=
  (joinSegment_first_match exactDecimal _
    [{ segment := 20, baseline := 7 }, { segment := 20, baseline := 9 }] 20
    { segment := 20, baseline := 7 } (by decide)).2.2.1

/-- C3: when no entry of the segment map has the target segment (the empty map
included), the lookup loop of `processFiles` leaves the parsed records as they are,
and the vector pushed for the segment is the parser's output: same length, same
order, every column of every record unchanged. -/
theorem joinSegment_passthrough {F : Type} [Zero F] (strtof : Decimal → F × Bool)
    (fs : FileSystem) (m : List (SegmentMap F)) (segment : Nat)
    (h : ∀ sm ∈ m, sm.segment ≠ (segment : Int)) :
    (∀ data : List (DataPoint F), joinSegment m segment data = data) ∧
    promptData strtof fs m segment = (parseFile strtof fs (promptFileName segment) 5).1 := by
  refine ⟨fun data => joinSegment_of_absent m _ data h, ?_⟩
  unfold promptData
  exact joinSegment_of_absent m _ _ h

theorem joinSegment_passthrough_witness :
    promptData exactDecimal (fun _ => some ["1.0,3.0".toList])
        [{ segment := 20, baseline := 7 }] 21
      = (parseFile exactDecimal (fun _ => some ["1.0,3.0".toList]) (promptFileName 21) 5).1 :=
  (joinSegment_passthrough exactDecimal (fun _ => some ["1.0,3.0".toList])
    [{ segment := 20, baseline := 7 }] 21 (by decide)).2

section StreamLemmas

variable {F : Type} [Zero F]

theorem extractFloat_after_fail (strtof : Decimal → F × Bool) (ss : IStream)
    (h : ss.failbit = true) (v : F) :
    (extractFloat strtof (ignore ss) v).1 = v ∧
      (extractFloat strtof (ignore ss) v).2.failbit = true := by
  have hg : (ignore ss).good = false := by
    simp [ignore, IStream.good, h]
  simp [extractFloat, hg]

end StreamLemmas

/-- C5, as the code has it: for every line that is neither empty nor a comment,
`parseFile` with five columns reports nothing and adds exactly one record, in
place, however few numeric tokens the line holds; the columns after the first
one whose extraction fails are zero. -/
theorem parseFile_keeps_short_lines {F : Type} [Zero F] (strtof : Decimal → F × Bool)
    (name : String) (pre post : List Line) (line : Line)
    (h : line ≠ [] ∧ line.head? ≠ some '#') :
    parseFile strtof (fun _ => some (pre ++ line :: post)) name 5
      = ((parseFile strtof (fun _ => some pre) name 5).1
          ++ parseLine strtof 5 line :: (parseFile strtof (fun _ => some post) name 5).1, []) ∧
    (∀ j : Nat, fieldsRead strtof line < j → j < 5 →
      (parseLine strtof 5 line).column j = 0) := by
  have hs : skipLine line = false := by
    obtain ⟨h1, h2⟩ := h
    cases line with
    | nil => exact absurd rfl h1
    | cons c t =>
      have : c ≠ '#' := by simpa using h2
      simp [skipLine, this]
  refine ⟨by simp [parseFile, parseFileLoop_eq, hs], fun j hj hj5 => ?_⟩
  unfold fieldsRead at hj
  simp only [parseLine, DataPoint.default]
  by_cases f1 : (extractFloat strtof (IStream.ofLine line) (0 : F)).2.failbit = true
  · have e2 := extractFloat_after_fail strtof _ f1 (0 : F)
    have e3 := extractFloat_after_fail strtof _ e2.2 (0 : F)
    have e4 := extractFloat_after_fail strtof _ e3.2 (0 : F)
    have e5 := extractFloat_after_fail strtof _ e4.2 (0 : F)
    have : j = 1 ∨ j = 2 ∨ j = 3 ∨ j = 4 := by simp [f1] at hj; omega
    rcases this with rfl | rfl | rfl | rfl <;>
      simp [DataPoint.column, e2.1, e3.1, e4.1, e5.1]
  · by_cases f2 : (extractFloat strtof
        (ignore (extractFloat strtof (IStream.ofLine line) (0 : F)).2) (0 : F)).2.failbit = true
    · have e3 := extractFloat_after_fail strtof _ f2 (0 : F)
      have e4 := extractFloat_after_fail strtof _ e3.2 (0 : F)
      have e5 := extractFloat_after_fail strtof _ e4.2 (0 : F)
      have : j = 2 ∨ j = 3 ∨ j = 4 := by simp [f1, f2] at hj; omega
      rcases this with rfl | rfl | rfl <;>
        simp [DataPoint.column, e3.1, e4.1, e5.1]
    · by_cases f3 : (extractFloat strtof (ignore (extractFloat strtof
          (ignore (extractFloat strtof (IStream.ofLine line) (0 : F)).2) (0 : F)).2)
            (0 : F)).2.failbit = true
      · have e4 := extractFloat_after_fail strtof _ f3 (0 : F)
        have e5 := extractFloat_after_fail strtof _ e4.2 (0 : F)
        have : j = 3 ∨ j = 4 := by simp [f1, f2, f3] at hj; omega
        rcases this with rfl | rfl <;>
          simp [DataPoint.column, e4.1, e5.1]
      · by_cases f4 : (extractFloat strtof (ignore (extractFloat strtof (ignore
            (extractFloat strtof (ignore (extractFloat strtof (IStream.ofLine line)
              (0 : F)).2) (0 : F)).2) (0 : F)).2) (0 : F)).2.failbit = true
        · have e5 := extractFloat_after_fail strtof _ f4 (0 : F)
          have : j = 4 := by simp [f1, f2, f3, f4] at hj; omega
          subst this
          simp [DataPoint.column, e5.1]
        · exfalso
          simp only [Bool.not_eq_true] at f1 f2 f3 f4
          simp only [f1, f2, f3, f4] at hj
          simp at hj
          split at hj <;> omega

theorem parseFile_keeps_short_lines_witness :
    parseFile exactDecimal (fun _ => some ([] ++ "1.0,2.0".toList :: [])) "prompt" 5
      = ((parseFile exactDecimal (fun _ => some []) "prompt" 5).1
          ++ parseLine exactDecimal 5 "1.0,2.0".toList
            :: (parseFile exactDecimal (fun _ => some []) "prompt" 5).1, []) :=
  (parseFile_keeps_short_lines exactDecimal "prompt" [] [] "1.0,2.0".toList (by decide)).1

/-- C5, as stated, fails: the line `1.0,2.0` holds two numeric tokens, yet
`parseFile` with five columns returns a record for it, with the two values read and
zeros in the other columns, and writes nothing to `std::cerr`. -/
theorem parseFile_short_line_record :
    fieldsRead exactDecimal "1.0,2.0".toList = 2 ∧
    parseFile exactDecimal (fun _ => some ["1.0,2.0".toList]) "prompt" 5
      = ([{ bin_center := 1, ibd_counts := 2, total_stats_error := 0,
            background_counts := 0, background_stats_error := 0 }], []) := by
  decide

/-- C8: an empty line or a line starting with `#` yields no record and no entry:
with or without such a line at any place of the input, `parseFile` (for any column
count) and `parseSegmentMapFile` return the same, and what they return is the
sequence of the entries of the remaining lines, in the order of those lines. -/
theorem skipped_lines_leave_no_entry {F : Type} [Zero F] (strtof : Decimal → F × Bool)
    (uninit : SegmentMap F) (numColumns : Int) (name : String) (pre post : List Line)
    (l : Line) (h : l = [] ∨ l.head? = some '#') :
    parseFile strtof (fun _ => some (pre ++ l :: post)) name numColumns
      = parseFile strtof (fun _ => some (pre ++ post)) name numColumns ∧
    parseSegmentMapFile strtof uninit (fun _ => some (pre ++ l :: post)) name
      = parseSegmentMapFile strtof uninit (fun _ => some (pre ++ post)) name ∧
    (∀ lines : List Line,
      (parseFile strtof (fun _ => some lines) name numColumns).1
        = (lines.filter (fun x => !(x.isEmpty || x.head? == some '#'))).map
            (parseLine strtof numColumns)) ∧
    (∀ lines : List Line,
      (parseSegmentMapFile strtof uninit (fun _ => some lines) name).1
        = (lines.filter (fun x => !(x.isEmpty || x.head? == some '#'))).map
            (parseSegmentMapLine strtof uninit)) := by
  have hs : skipLine l = true := by
    rcases h with h | h
    · simp [skipLine, h]
    · simp [skipLine, h]
  refine ⟨?_, ?_, fun lines => ?_, fun lines => ?_⟩
  · simp [parseFile, parseFileLoop_eq, List.filter_append, hs]
  · simp [parseSegmentMapFile, parseSegmentMapLoop_eq, List.filter_append, hs]
  · simp [parseFile, parseFileLoop_eq, skipLine]
  · simp [parseSegmentMapFile, parseSegmentMapLoop_eq, skipLine]

theorem skipped_lines_leave_no_entry_witness :
    parseFile exactDecimal
        (fun _ => some (["1.0,3.0".toList] ++ "# energy, counts".toList :: ["2.0,4.0".toList]))
        "null" 2
      = parseFile exactDecimal (fun _ => some (["1.0,3.0".toList] ++ ["2.0,4.0".toList]))
          "null" 2 :=
  (skipped_lines_leave_no_entry exactDecimal { segment := 0, baseline := 0 } 2 "null"
    ["1.0,3.0".toList] ["2.0,4.0".toList] "# energy, counts".toList (Or.inr (by decide))).1

/-- C9, as the code has it: when the segment map file cannot be opened,
`parseSegmentMapFile` writes a message to `std::cerr` and returns the empty vector,
the value it also returns for a file without entries; `processFiles` takes it as its
map and goes on, pushing every segment's parsed records unjoined. -/
theorem parseSegmentMapFile_unavailable {F : Type} [Zero F] [Add F]
    (strtof : Decimal → F × Bool) (val : F → ℚ) (uninit : SegmentMap F) (fs : FileSystem)
    (h : fs segmentMapFileName = none) :
    parseSegmentMapFile strtof uninit fs segmentMapFileName
      = ([], ["Error opening file: PromptDataSet/1.1_Osc_SegmentMap.txt"]) ∧
    (parseSegmentMapFile strtof uninit (fun _ => some []) segmentMapFileName).1 = [] ∧
    (processFiles strtof val uninit fs).segmentMap = [] ∧
    (processFiles strtof val uninit fs).allPromptData
      = promptSegments.map (fun s => (parseFile strtof fs (promptFileName s) 5).1) := by
  have h1 : parseSegmentMapFile strtof uninit fs segmentMapFileName
      = ([], ["Error opening file: PromptDataSet/1.1_Osc_SegmentMap.txt"]) := by
    simp only [parseSegmentMapFile, h]
    rfl
  refine ⟨h1, by simp [parseSegmentMapFile, parseSegmentMapLoop], ?_, ?_⟩
  · simp [processFiles, h1]
  · simp only [processFiles, h1]
    apply List.map_congr_left
    intro s _
    simp [promptData, joinSegment]

theorem parseSegmentMapFile_unavailable_witness :
    (processFiles exactDecimal id { segment := 0, baseline := 0 } (fun _ => none)).segmentMap
      = [] :=
  (parseSegmentMapFile_unavailable exactDecimal id { segment := 0, baseline := 0 }
    (fun _ => none) rfl).2.2.1

/-- C9, as stated, fails: the vector `parseSegmentMapFile` returns for a file that
cannot be opened equals the one it returns for a file that opens and holds no entry,
so its caller cannot tell the two apart. -/
theorem parseSegmentMapFile_unavailable_same_result :
    (parseSegmentMapFile exactDecimal { segment := 0, baseline := 0 } (fun _ => none)
        segmentMapFileName).1
      = (parseSegmentMapFile exactDecimal { segment := 0, baseline := 0 } (fun _ => some [])
        segmentMapFileName).1 := by
  decide

section WalkLemmas

variable {F : Type} [Zero F]

theorem cellOf_append_ne (done : List (DataPoint F)) (dp : DataPoint F) (b c : Nat)
    (h : (1 ≤ c ∧ c ≤ 16) → 16 * b + (c - 1) ≠ done.length) :
    cellOf (done ++ [dp]) b c = cellOf done b c := by
  unfold cellOf
  split
  · rename_i hc
    rcases Nat.lt_or_gt_of_ne (h hc) with hlt | hgt
    · rw [List.getElem?_append_left hlt]
    · rw [List.getElem?_eq_none (by simp; omega), List.getElem?_eq_none (by omega)]
  · rfl

theorem cellOf_append_eq (done : List (DataPoint F)) (dp : DataPoint F) (b c : Nat)
    (hc : 1 ≤ c ∧ c ≤ 16) (h : 16 * b + (c - 1) = done.length) :
    cellOf (done ++ [dp]) b c = dp.ibd_counts := by
  unfold cellOf
  rw [if_pos hc, h, List.getElem?_concat_length]
  rfl

theorem gridInv_init :
    GridInv (List.replicate 10 (TH1F.new 16 (1 / 2) (15 / 2) : TH1F F)) [] := by
  refine ⟨by simp, fun b hb => ⟨TH1F.new 16 (1 / 2) (15 / 2), ?_, by simp [TH1F.new], ?_⟩⟩
  · exact List.getElem?_replicate_of_lt hb
  · intro c hc
    simp only [TH1F.new]
    rw [List.getElem?_replicate_of_lt hc]
    simp [cellOf]

theorem gridInv_step (g : List (TH1F F)) (done : List (DataPoint F)) (dp : DataPoint F)
    (hlen : done.length < 160) (inv : GridInv g done) :
    ∃ h, g[done.length / 16]? = some h ∧
      GridInv (g.set (done.length / 16) (h.SetBinContent (done.length % 16 + 1) dp.ibd_counts))
        (done ++ [dp]) := by
  obtain ⟨hg, hcells⟩ := inv
  have hb0 : done.length / 16 < 10 := by omega
  obtain ⟨h, hh, hlen18, hc⟩ := hcells _ hb0
  refine ⟨h, hh, by simpa using hg, fun b hb => ?_⟩
  by_cases hbb : b = done.length / 16
  · subst hbb
    refine ⟨h.SetBinContent (done.length % 16 + 1) dp.ibd_counts, ?_, ?_, ?_⟩
    · rw [List.getElem?_set]; simp [hg, hb0]
    · simpa [TH1F.SetBinContent] using hlen18
    · intro c hc18
      by_cases hcc : c = done.length % 16 + 1
      · subst hcc
        rw [cellOf_append_eq done dp _ _ (by omega) (by omega)]
        simp only [TH1F.SetBinContent]
        rw [List.getElem?_set]
        simp [hlen18]
        omega
      · rw [cellOf_append_ne done dp _ _ (by intro hr; omega)]
        simp only [TH1F.SetBinContent]
        rw [List.getElem?_set_ne (fun h => hcc h.symm)]
        exact hc c hc18
  · obtain ⟨h2, hh2, hlen2, hc2⟩ := hcells b hb
    refine ⟨h2, ?_, hlen2, ?_⟩
    · rw [List.getElem?_set_ne (fun h => hbb h.symm)]; exact hh2
    · intro c hc18
      rw [cellOf_append_ne done dp _ _ (by intro hr; omega)]
      exact hc2 c hc18

theorem current_segment_step (i cur : Nat) (h : cur = (i - 1) / 16) :
    (if (i % 16 == 0 && i != 0) = true then cur + 1 else cur) = i / 16 := by
  subst h
  by_cases h0 : i % 16 = 0
  · by_cases hi : i = 0
    · subst hi; simp
    · have : (i % 16 == 0 && i != 0) = true := by simp [h0, hi]
      rw [if_pos this]; omega
  · have : ¬ ((i % 16 == 0 && i != 0) = true) := by simp [h0]
    rw [if_neg this]; omega

omit [Zero F] in
theorem plotHistogramsLoop_append (a b : List (DataPoint F)) (i : Nat) (st : BlockWalk F) :
    plotHistogramsLoop (a ++ b) i st
      = plotHistogramsLoop b (i + a.length) (plotHistogramsLoop a i st) := by
  induction a generalizing i st with
  | nil => simp [plotHistogramsLoop]
  | cons x xs ih =>
    show plotHistogramsLoop (xs ++ b) (i + 1) (plotHistogramsStep st i x.ibd_counts)
      = plotHistogramsLoop b (i + (xs.length + 1))
          (plotHistogramsLoop xs (i + 1) (plotHistogramsStep st i x.ibd_counts))
    rw [ih, show i + 1 + xs.length = i + (xs.length + 1) by omega]

omit [Zero F] in
theorem plotHistogramsLoop_writes (rows : List (DataPoint F)) (i : Nat) (st : BlockWalk F)
    (hcur : st.current_segment = (i - 1) / 16) :
    (plotHistogramsLoop rows i st).writes
        = st.writes ++ (List.range rows.length).map (fun k => ((i + k) / 16, (i + k) % 16 + 1)) ∧
      (plotHistogramsLoop rows i st).current_segment = (i + rows.length - 1) / 16 := by
  induction rows generalizing i st with
  | nil => simp [plotHistogramsLoop, hcur]
  | cons dp rest ih =>
    have hstep : (plotHistogramsStep st i dp.ibd_counts).current_segment = (i + 1 - 1) / 16 := by
      simp only [plotHistogramsStep]
      rw [current_segment_step i _ hcur]; simp
    obtain ⟨hw, hc⟩ := ih (i + 1) (plotHistogramsStep st i dp.ibd_counts) hstep
    refine ⟨?_, ?_⟩
    · simp only [plotHistogramsLoop]
      rw [hw, List.length_cons, List.range_succ_eq_map]
      simp only [plotHistogramsStep]
      rw [current_segment_step i _ hcur]
      simp [List.map_map, Function.comp_def, Nat.add_assoc, Nat.add_comm 1]
    · simp only [plotHistogramsLoop]
      rw [hc, List.length_cons]
      congr 1; omega

theorem plotHistogramsLoop_inv (rows done : List (DataPoint F)) (st : BlockWalk F)
    (g : List (TH1F F)) (hg : st.histograms = some g) (inv : GridInv g done)
    (hcur : st.current_segment = (done.length - 1) / 16)
    (hlen : done.length + rows.length ≤ 160) :
    ∃ g2, (plotHistogramsLoop rows done.length st).histograms = some g2 ∧
      GridInv g2 (done ++ rows) := by
  induction rows generalizing done st g with
  | nil => exact ⟨g, by simpa [plotHistogramsLoop] using hg, by simpa using inv⟩
  | cons dp rest ih =>
    have hl : done.length < 160 := by simp at hlen; omega
    obtain ⟨h, hh, inv2⟩ := gridInv_step g done dp hl inv
    have hcs : (plotHistogramsStep st done.length dp.ibd_counts).current_segment
        = done.length / 16 := by
      simp only [plotHistogramsStep]
      exact current_segment_step _ _ hcur
    have hst : (plotHistogramsStep st done.length dp.ibd_counts).histograms
        = some (g.set (done.length / 16)
            (h.SetBinContent (done.length % 16 + 1) dp.ibd_counts)) := by
      simp only [plotHistogramsStep, hg, Option.bind]
      rw [current_segment_step _ _ hcur, hh]
    have := ih (done ++ [dp]) (plotHistogramsStep st done.length dp.ibd_counts) _ hst inv2
      (by simpa using hcs) (by simp at hlen ⊢; omega)
    simpa [plotHistogramsLoop] using this

omit [Zero F] in
theorem plotHistogramsLoop_none (rows : List (DataPoint F)) (i : Nat) (st : BlockWalk F)
    (h : st.histograms = none) : (plotHistogramsLoop rows i st).histograms = none := by
  induction rows generalizing i st with
  | nil => simpa [plotHistogramsLoop] using h
  | cons dp rest ih =>
    simp only [plotHistogramsLoop]
    exact ih _ _ (by simp [plotHistogramsStep, h])

theorem plotHistograms_inv (tree : List (DataPoint F)) (hlen : tree.length ≤ 160) :
    ∃ g, (plotHistograms tree).histograms = some g ∧ GridInv g tree := by
  have := plotHistogramsLoop_inv tree [] 
    { current_segment := 0
      histograms := some (List.replicate 10 (TH1F.new 16 (1 / 2) (15 / 2) : TH1F F))
      writes := [] } _ rfl gridInv_init (by simp) (by simpa using hlen)
  simpa [plotHistograms] using this

theorem content_of_inv (w : BlockWalk F) (g : List (TH1F F)) (tree : List (DataPoint F))
    (hw : w.histograms = some g) (inv : GridInv g tree) (b o : Nat) (hb : b < 10)
    (ho : o < 16) :
    w.content b o = some (((tree[16 * b + o]?).map DataPoint.ibd_counts).getD 0) := by
  obtain ⟨_, hcells⟩ := inv
  obtain ⟨h, hh, _, hc⟩ := hcells b hb
  have hc1 := hc (o + 1) (by omega)
  have h16 : 1 ≤ o + 1 ∧ o + 1 ≤ 16 := by omega
  simp only [BlockWalk.content, hw, Option.bind, hh, Option.map, TH1F.GetBinContent,
    List.getD_eq_getElem?_getD, hc1, Option.getD, cellOf, if_pos h16, Nat.add_sub_cancel]

end WalkLemmas

section WalkResults

variable {F : Type} [Zero F]

theorem plotHistograms_writes (tree : List (DataPoint F)) :
    (plotHistograms tree).writes
      = (List.range tree.length).map (fun i => (i / 16, i % 16 + 1)) := by
  have := (plotHistogramsLoop_writes tree 0
    { current_segment := 0
      histograms := some (List.replicate 10 (TH1F.new 16 (1 / 2) (15 / 2) : TH1F F))
      writes := [] } (by simp)).1
  simpa [plotHistograms] using this

theorem plotHistograms_overrun (tree : List (DataPoint F)) (hlen : 160 < tree.length) :
    (plotHistograms tree).histograms = none := by
  have hsplit : tree = tree.take 160 ++ tree.drop 160 := (List.take_append_drop 160 tree).symm
  have htake : (tree.take 160).length = 160 := by simp; omega
  obtain ⟨g, hg, inv⟩ := plotHistograms_inv (tree.take 160) (by omega)
  have hcur := (plotHistogramsLoop_writes (tree.take 160) 0
    { current_segment := 0
      histograms := some (List.replicate 10 (TH1F.new 16 (1 / 2) (15 / 2) : TH1F F))
      writes := [] } (by simp)).2
  rw [htake] at hcur
  cases hdrop : tree.drop 160 with
  | nil =>
    have : (tree.drop 160).length = 0 := by rw [hdrop]; rfl
    simp at this; omega
  | cons dp rest =>
    rw [hsplit, hdrop]
    unfold plotHistograms at hg ⊢
    rw [plotHistogramsLoop_append, htake]
    simp only [plotHistogramsLoop]
    apply plotHistogramsLoop_none
    simp only [plotHistogramsStep, hg, hcur, Option.bind]
    have h10 : g[10]? = none := List.getElem?_eq_none (by rw [inv.1])
    simp [h10]

end WalkResults

/-- C4: for a flat record sequence of at most 160 rows, the walk of `plotHistograms`
leaves the `ibd_counts` of row `i` in block `i / 16` at offset `i % 16` (bin number
`i % 16 + 1`), and every cell `(b, o)` with `16 * b + o` at or past the number of
rows stays 0; for 32 rows, rows 0..15 are in block 0 and rows 16..31 in block 1, at
offsets 0..15. -/
theorem plotHistograms_block_layout {F : Type} [Zero F] (tree : List (DataPoint F))
    (hlen : tree.length ≤ 160) :
    (∀ i, i < tree.length →
      (plotHistograms tree).content (i / 16) (i % 16) = (tree[i]?).map DataPoint.ibd_counts) ∧
    (∀ b o, b < 10 → o < 16 → tree.length ≤ 16 * b + o →
      (plotHistograms tree).content b o = some 0) ∧
    (tree.length = 32 → ∀ o, o < 16 →
      (plotHistograms tree).content 0 o = (tree[o]?).map DataPoint.ibd_counts ∧
      (plotHistograms tree).content 1 o = (tree[16 + o]?).map DataPoint.ibd_counts) := by
  obtain ⟨g, hg, inv⟩ := plotHistograms_inv tree hlen
  have key : ∀ i, i < tree.length →
      (plotHistograms tree).content (i / 16) (i % 16) = (tree[i]?).map DataPoint.ibd_counts := by
    intro i hi
    rw [content_of_inv _ g tree hg inv (i / 16) (i % 16) (by omega) (Nat.mod_lt _ (by omega)),
      Nat.div_add_mod, List.getElem?_eq_getElem hi]
    rfl
  refine ⟨key, fun b o hb ho hn => ?_, fun h32 o ho => ⟨?_, ?_⟩⟩
  · rw [content_of_inv _ g tree hg inv b o hb ho, List.getElem?_eq_none hn]
    rfl
  · have := key o (by omega)
    rwa [Nat.div_eq_of_lt ho, Nat.mod_eq_of_lt ho] at this
  · have := key (16 + o) (by omega)
    rwa [show (16 + o) / 16 = 1 by omega, show (16 + o) % 16 = o by omega] at this

theorem plotHistograms_block_layout_witness :
    (plotHistograms ((List.range 32).map (fun k =>
        ({ bin_center := 0, ibd_counts := (k : ℚ), total_stats_error := 0,
           background_counts := 0, background_stats_error := 0 } : DataPoint ℚ)))).content
        (19 / 16) (19 % 16)
      = (((List.range 32).map (fun k =>
        ({ bin_center := 0, ibd_counts := (k : ℚ), total_stats_error := 0,
           background_counts := 0, background_stats_error := 0 } : DataPoint ℚ)))[19]?).map
          DataPoint.ibd_counts :=
  (plotHistograms_block_layout _ (by decide)).1 19 (by decide)

/-- C10: at step `i` of the walk of `plotHistograms` the block index is `i / 16` and
the bin number `i % 16 + 1`; every write addresses one of the 10 allocated blocks
with an offset in 0..15 exactly when the sequence has at most 160 rows, which is
also exactly when the walk stays inside the vector; with more than 160 rows the row
at index 160 is written to block index 10, outside the vector, and nothing rejects
it. -/
theorem plotHistograms_block_index {F : Type} [Zero F] (tree : List (DataPoint F)) :
    (plotHistograms tree).writes
      = (List.range tree.length).map (fun i => (i / 16, i % 16 + 1)) ∧
    ((∀ p ∈ (plotHistograms tree).writes, p.1 < 10 ∧ 1 ≤ p.2 ∧ p.2 ≤ 16)
      ↔ tree.length ≤ 160) ∧
    ((plotHistograms tree).histograms.isSome = true ↔ tree.length ≤ 160) ∧
    (160 < tree.length →
      (plotHistograms tree).writes[160]? = some (10, 1) ∧
      (plotHistograms tree).histograms = none) := by
  have hw := plotHistograms_writes tree
  refine ⟨hw, ?_, ?_, fun h => ⟨?_, plotHistograms_overrun tree h⟩⟩
  · rw [hw]
    constructor
    · intro hall
      by_contra hn
      have := hall (160 / 16, 160 % 16 + 1)
        (List.mem_map.mpr ⟨160, List.mem_range.mpr (by omega), rfl⟩)
      simp at this
    · intro hn p hp
      obtain ⟨i, hi, rfl⟩ := List.mem_map.mp hp
      have := List.mem_range.mp hi
      simp only
      omega
  · constructor
    · intro hsome
      by_contra hn
      rw [plotHistograms_overrun tree (by omega)] at hsome
      simp at hsome
    · intro hn
      obtain ⟨g, hg, _⟩ := plotHistograms_inv tree hn
      simp [hg]
  · rw [hw, List.getElem?_map, List.getElem?_range h]
    rfl

theorem plotHistograms_block_index_witness :
    (plotHistograms (List.replicate 161
        ({ bin_center := 0, ibd_counts := 1, total_stats_error := 0,
           background_counts := 0, background_stats_error := 0 } : DataPoint ℚ))).histograms
      = none :=
  ((plotHistograms_block_index (List.replicate 161
        ({ bin_center := 0, ibd_counts := 1, total_stats_error := 0,
           background_counts := 0, background_stats_error := 0 } : DataPoint ℚ))).2.2.2
    (by simp)).2

section FillLemmas

variable {F : Type} [Zero F]

end FillLemmas

section ScanLemmas

theorem digit_not_special (c : Char) (h : c.isDigit = true) :
    isspace c = false ∧ c ≠ '+' ∧ c ≠ '-' ∧ c ≠ '.' ∧ c ≠ 'e' ∧ c ≠ 'E' ∧ c ≠ '#' := by
  refine ⟨?_, ?_, ?_, ?_, ?_, ?_, ?_⟩
  · unfold isspace
    simp only [Bool.or_eq_false_iff, beq_eq_false_iff_ne]
    refine ⟨⟨⟨⟨⟨?_, ?_⟩, ?_⟩, ?_⟩, ?_⟩, ?_⟩ <;>
      (rintro rfl; exact absurd h (by decide))
  all_goals (rintro rfl; exact absurd h (by decide))

theorem takeSign_digit (c : Char) (t : List Char) (h : c.isDigit = true) :
    takeSign (c :: t) = (false, c :: t) := by
  have hf := digit_not_special c h
  unfold takeSign
  split
  · rename_i heq; cases heq; exact absurd rfl hf.2.2.1
  · rename_i heq; cases heq; exact absurd rfl hf.2.1
  · rfl

theorem scanBody_digits (ds rest : List Char) (hds : ds.all Char.isDigit = true)
    (mant dec sci : Bool) :
    scanBody mant dec sci (ds ++ rest)
      = (ds ++ (scanBody (mant || !ds.isEmpty) dec sci rest).1,
          (scanBody (mant || !ds.isEmpty) dec sci rest).2) := by
  induction ds generalizing mant with
  | nil => simp
  | cons c cs ih =>
    have hc : c.isDigit = true := by simp at hds; exact hds.1
    have hcs : cs.all Char.isDigit = true := by simp at hds ⊢; exact hds.2
    rw [List.cons_append, scanBody.eq_def]
    simp only [hc, if_true]
    rw [ih hcs true]
    simp

theorem scanBody_stop (mant dec sci : Bool) (rest : List Char)
    (h : ∀ c ∈ rest.head?, isNumericChar c = false) :
    scanBody mant dec sci rest = ([], rest) := by
  cases rest with
  | nil => rfl
  | cons c cs =>
    have hc := h c (by simp)
    simp only [isNumericChar, Bool.or_eq_false_iff, beq_eq_false_iff_ne] at hc
    obtain ⟨⟨⟨⟨⟨h1, h2⟩, h3⟩, h4⟩, _⟩, _⟩ := hc
    rw [scanBody.eq_def]
    simp [h1, h2, h3, h4]

theorem digitsVal_foldl (ds : List Char) (n : Nat) :
    ds.foldl (fun n c => 10 * n + (c.toNat - 48)) n
      = n * 10 ^ ds.length + positionalValue ds := by
  induction ds generalizing n with
  | nil => simp [positionalValue]
  | cons c cs ih =>
    simp only [List.foldl_cons, List.length_cons, positionalValue]
    rw [ih]
    ring

theorem digitsVal_eq_positionalValue (ds : List Char) : digitsVal ds = positionalValue ds := by
  unfold digitsVal
  rw [digitsVal_foldl]
  simp

theorem takeWhile_digits_append (ip tail : List Char) (hip : ip.all Char.isDigit = true)
    (htail : ∀ c ∈ tail.head?, c.isDigit = false) :
    (ip ++ tail).takeWhile Char.isDigit = ip ∧ (ip ++ tail).dropWhile Char.isDigit = tail := by
  induction ip with
  | nil =>
    cases tail with
    | nil => simp
    | cons c cs =>
      have hc := htail c (by simp)
      simp [List.takeWhile_cons, List.dropWhile_cons, hc]
  | cons c cs ih =>
    have hc : c.isDigit = true := by simp at hip; exact hip.1
    have hcs : cs.all Char.isDigit = true := by simp at hip ⊢; exact hip.2
    obtain ⟨h1, h2⟩ := ih hcs
    simp [List.takeWhile_cons, List.dropWhile_cons, hc, h1, h2]

theorem scanBody_unsigned (ip : List Char) (fd : Option (List Char)) (rest : List Char)
    (h1 : ip.isEmpty = false) (hip : ip.all Char.isDigit = true)
    (hfd : (fd.getD []).all Char.isDigit = true)
    (hrest : ∀ c ∈ rest.head?, isNumericChar c = false) :
    scanBody false false false ((ip ++ fracText fd) ++ rest) = (ip ++ fracText fd, rest) := by
  cases fd with
  | none =>
    simp only [fracText, List.append_nil]
    rw [scanBody_digits ip rest hip, scanBody_stop _ _ _ rest hrest]
    simp
  | some fp =>
    simp only [Option.getD_some] at hfd
    simp only [fracText]
    rw [List.append_assoc, scanBody_digits ip _ hip]
    simp only [h1, Bool.not_false, Bool.or_true, List.cons_append]
    have hdot : scanBody true false false ('.' :: (fp ++ rest)) = ('.' :: fp, rest) := by
      have hd : Char.isDigit '.' = false := by decide
      have e := scanBody_digits fp rest hfd true true false
      rw [scanBody_stop _ _ _ rest hrest] at e
      simp only [List.append_nil] at e
      rw [scanBody.eq_def]
      simp [hd, e]
    rw [hdot]

theorem fieldDecimal_unsigned (neg : Bool) (t ip : List Char) (fd : Option (List Char))
    (hsg : takeSign t = (neg, ip ++ fracText fd))
    (h1 : ip.isEmpty = false) (hip : ip.all Char.isDigit = true)
    (hfd : (fd.getD []).all Char.isDigit = true) :
    fieldDecimal t
      = some { neg := neg, mant := positionalValue (ip ++ fd.getD []),
               exp10 := - ((fd.getD []).length : Int) } := by
  unfold fieldDecimal
  simp only [hsg]
  cases fd with
  | none =>
    simp only [fracText, List.append_nil]
    have hw := takeWhile_digits_append ip [] hip (by simp)
    rw [List.append_nil] at hw
    simp [hw.1, hw.2, h1, digitsVal_eq_positionalValue]
  | some fp =>
    simp only [Option.getD_some] at hfd
    simp only [fracText]
    have hd : Char.isDigit '.' = false := by decide
    have hw := takeWhile_digits_append ip ('.' :: fp) hip (by simp [hd])
    have hw2 := takeWhile_digits_append fp [] hfd (by simp)
    rw [List.append_nil] at hw2
    simp [hw.1, hw.2, hw2.1, hw2.2, h1, digitsVal_eq_positionalValue]

theorem numeral_scan (n : Numeral) (hn : n.wellFormed = true) (rest : List Char)
    (hrest : ∀ c ∈ rest.head?, isNumericChar c = false) :
    scanFloat (n.text ++ rest) = (n.text, rest) ∧
      fieldDecimal n.text = some n.decimal ∧
      ∃ c t, n.text = c :: t ∧ isspace c = false ∧ c ≠ '#' := by
  obtain ⟨sign, ip, fd⟩ := n
  simp only [Numeral.wellFormed, Bool.and_eq_true, Bool.not_eq_true'] at hn
  obtain ⟨⟨h1, hip⟩, hfd⟩ := hn
  have hbody := scanBody_unsigned ip fd rest h1 hip hfd hrest
  simp only [List.append_assoc] at hbody
  cases sign with
  | minus =>
    refine ⟨?_, ?_, '-', _, rfl, by decide, by decide⟩
    · show scanFloat ('-' :: ((ip ++ fracText fd) ++ rest)) = ('-' :: (ip ++ fracText fd), rest)
      simp [scanFloat, hbody]
    · exact fieldDecimal_unsigned true _ ip fd rfl h1 hip hfd
  | plus =>
    refine ⟨?_, ?_, '+', _, rfl, by decide, by decide⟩
    · show scanFloat ('+' :: ((ip ++ fracText fd) ++ rest)) = ('+' :: (ip ++ fracText fd), rest)
      simp [scanFloat, hbody]
    · exact fieldDecimal_unsigned false _ ip fd rfl h1 hip hfd
  | unsigned =>
    cases ip with
    | nil => simp at h1
    | cons c cs =>
      have hc : c.isDigit = true := by simp at hip; exact hip.1
      have hf := digit_not_special c hc
      refine ⟨?_, ?_, c, _, rfl, hf.1, hf.2.2.2.2.2.2⟩
      · show scanFloat (c :: ((cs ++ fracText fd) ++ rest)) = (c :: (cs ++ fracText fd), rest)
        simp only [List.cons_append] at hbody
        simp [scanFloat, hf.2.1, hf.2.2.1, hbody]
      · exact fieldDecimal_unsigned false _ (c :: cs) fd (takeSign_digit c _ hc) h1 hip hfd

end ScanLemmas

section ExtractLemmas

variable {F : Type} [Zero F]

theorem extractFloat_numeral (strtof : Decimal → F × Bool) (n : Numeral)
    (hn : n.wellFormed = true) (rest : List Char)
    (hrest : ∀ c ∈ rest.head?, isNumericChar c = false) (v : F) :
    extractFloat strtof { buf := n.text ++ rest, eofbit := false, failbit := false } v
      = ((strtof n.decimal).1,
          { buf := rest, eofbit := rest.isEmpty, failbit := (strtof n.decimal).2 }) := by
  obtain ⟨hscan, hfield, c, t, htext, hsp, _⟩ := numeral_scan n hn rest hrest
  have hdrop : List.dropWhile isspace (n.text ++ rest) = n.text ++ rest := by
    rw [htext, List.cons_append, List.dropWhile_cons_of_neg (by simp [hsp])]
  have hne : (n.text ++ rest).isEmpty = false := by rw [htext]; rfl
  simp only [extractFloat, IStream.good, Bool.not_false, Bool.and_self, Bool.not_true,
    Bool.false_eq_true, if_false, hdrop, hne, hscan, convertField, hfield]

end ExtractLemmas

/-- C7, as the code has it: for a line made of a well-formed decimal numeral `a`, one
character `d` that is not a numeric-token character, and a well-formed decimal
numeral `b`, `parseFile` with two columns returns exactly one record and writes
nothing to `std::cerr`; the three extended columns are zero, `bin_center` is the
float `a` converts to, and `ibd_counts` is the float `b` converts to unless the
conversion of `a` reports a range error, which leaves `ibd_counts` at 0.  When `a`
and `b` are in the range of `float` the record is (`a`, `b`, 0, 0, 0); the lines
`-12.5;+0.25` and `007 1.` give (-12.5, 0.25) and (7, 1). -/
theorem parseFile_simple_line {F : Type} [Zero F] (strtof : Decimal → F × Bool)
    (name : String) (a b : Numeral) (d : Char)
    (ha : a.wellFormed = true) (hb : b.wellFormed = true) (hd : isNumericChar d = false) :
    parseFile strtof (fun _ => some [a.text ++ d :: b.text]) name 2
      = ([{ bin_center := (strtof a.decimal).1,
            ibd_counts := if (strtof a.decimal).2 = true then 0 else (strtof b.decimal).1,
            total_stats_error := 0, background_counts := 0, background_stats_error := 0 }],
         []) ∧
    ((strtof a.decimal).2 = false → (strtof b.decimal).2 = false →
      parseFile strtof (fun _ => some [a.text ++ d :: b.text]) name 2
        = ([{ bin_center := (strtof a.decimal).1, ibd_counts := (strtof b.decimal).1,
              total_stats_error := 0, background_counts := 0,
              background_stats_error := 0 }], [])) ∧
    parseFile exactDecimal (fun _ => some ["-12.5;+0.25".toList, "007 1.".toList]) "null" 2
      = ([{ bin_center := mkRat (-25) 2, ibd_counts := mkRat 1 4, total_stats_error := 0,
            background_counts := 0, background_stats_error := 0 },
          { bin_center := 7, ibd_counts := 1, total_stats_error := 0,
            background_counts := 0, background_stats_error := 0 }], []) := by
  obtain ⟨_, _, c, t, hact, _, hhash⟩ := numeral_scan a ha (d :: b.text) (by simpa using hd)
  have hskip : skipLine (a.text ++ d :: b.text) = false := by
    rw [hact]
    simp [skipLine, hhash]
  have e1 := extractFloat_numeral strtof a ha (d :: b.text) (by simpa using hd) (0 : F)
  have e2 := extractFloat_numeral strtof b hb [] (by simp) (0 : F)
  rw [List.append_nil] at e2
  have hline : parseLine strtof 2 (a.text ++ d :: b.text)
      = { bin_center := (strtof a.decimal).1,
          ibd_counts := if (strtof a.decimal).2 = true then 0 else (strtof b.decimal).1,
          total_stats_error := 0, background_counts := 0, background_stats_error := 0 } := by
    simp only [parseLine, IStream.ofLine, DataPoint.default, e1]
    by_cases hfl : (strtof a.decimal).2 = true
    · have hfail := extractFloat_after_fail strtof
        ⟨d :: b.text, (d :: b.text).isEmpty, (strtof a.decimal).2⟩ hfl (0 : F)
      rw [hfail.1]
      simp [hfl]
    · have hfl2 : (strtof a.decimal).2 = false := by simpa using hfl
      have hig : ignore ⟨d :: b.text, (d :: b.text).isEmpty, (strtof a.decimal).2⟩
          = ⟨b.text, false, false⟩ := by
        simp [ignore, IStream.good, hfl2]
      rw [hig, e2]
      simp [hfl2]
  have main : parseFile strtof (fun _ => some [a.text ++ d :: b.text]) name 2
      = ([{ bin_center := (strtof a.decimal).1,
            ibd_counts := if (strtof a.decimal).2 = true then 0 else (strtof b.decimal).1,
            total_stats_error := 0, background_counts := 0, background_stats_error := 0 }],
         []) := by
    simp [parseFile, parseFileLoop, hskip, hline]
  refine ⟨main, fun hfa _ => ?_, by decide⟩
  rw [main]
  simp [hfa]

theorem parseFile_simple_line_witness :
    parseFile exactDecimal
        (fun _ => some [Numeral.text ⟨NumSign.minus, "1".toList, some "50".toList⟩
          ++ ',' :: Numeral.text ⟨NumSign.unsigned, "3".toList, none⟩]) "null" 2
      = ([{ bin_center :=
              (exactDecimal (Numeral.decimal ⟨NumSign.minus, "1".toList, some "50".toList⟩)).1,
            ibd_counts :=
              (exactDecimal (Numeral.decimal ⟨NumSign.unsigned, "3".toList, none⟩)).1,
            total_stats_error := 0, background_counts := 0, background_stats_error := 0 }],
         []) :=
  (parseFile_simple_line exactDecimal "null"
    ⟨NumSign.minus, "1".toList, some "50".toList⟩ ⟨NumSign.unsigned, "3".toList, none⟩ ','
    (by decide) (by decide) (by decide)).2.1 rfl rfl

/-- C7, as stated, fails: the line made of the numeral 1 followed by 39 zeros, a
comma and the numeral `2.0` meets the conditions, and `2.0` converts to the float 2,
yet with a conversion that has the range of `float` the first numeral raises a range
error, so the record holds the largest float as `bin_center` and 0, not 2, as
`ibd_counts`. -/
theorem parseFile_simple_line_out_of_range :
    Numeral.wellFormed ⟨NumSign.unsigned, '1' :: List.replicate 39 '0', none⟩ = true ∧
    Numeral.wellFormed ⟨NumSign.unsigned, "2".toList, some "0".toList⟩ = true ∧
    isNumericChar ',' = false ∧
    rangeDecimal (Numeral.decimal ⟨NumSign.unsigned, "2".toList, some "0".toList⟩)
      = (2, false) ∧
    parseFile rangeDecimal
        (fun _ => some [Numeral.text ⟨NumSign.unsigned, '1' :: List.replicate 39 '0', none⟩
          ++ ',' :: Numeral.text ⟨NumSign.unsigned, "2".toList, some "0".toList⟩]) "null" 2
      = ([{ bin_center := 340282346638528859811704183484516925440, ibd_counts := 0,
            total_stats_error := 0, background_counts := 0,
            background_stats_error := 0 }], []) := by
  decide

end OscillationAnalyzer
